import Mathlib

/-!
# Omega_h: metric input and moving-object cases

A shallow embedding of `src/Omega_h_metric_input.cpp` (`automagic_hessian`,
`generate_metric`) and of `src/imr_cases.cpp` (the `Case` family and the
boundary-motion part of `run_case`).

Conventions of the embedding:

* `Real` (a C++ `double`) is modelled by an exact rational `ℚ`; `Reals`
  (a read-only array of `Real`) by `List ℚ`. The properties proved below only
  store, copy and compare such values, apart from the products `dir * PI / 8`.
* `Int`, `LO` and sizes are modelled by `Nat`, object ids (`I32`) by `Int`.
* Library routines that are not part of the files above are fields of an
  `Externals` / `Lib` structure (parameters of the development), or are
  modelled from the specification where their result is needed.
* `Omega_h_fail`, `osh_fail` and a failed check abort the run; they are
  modelled by the error side of `Except` (or by `Outcome.failed`).
-/

namespace Omega_h

/-- Read-only array of reals (`Reals`). -/
abbrev Reals := List ℚ

/-- The value types of a tag (`Omega_h_Type`). -/
inductive Omega_h_Type where
  | OMEGA_H_I8
  | OMEGA_H_I32
  | OMEGA_H_I64
  | OMEGA_H_REAL
  deriving DecidableEq, Repr

/-- The ways in which the two functions can abort. -/
inductive Failure where
  /-- The check `min_length <= max_length` did not hold. -/
  | check_failed
  /-- The message "generate_metric: no sources or limits given!". -/
  | no_sources_or_limits
  /-- The message "Couldn't figure out how to turn NAME into a Hessian". -/
  | cannot_turn_into_hessian (name : String)
  /-- A tag was fetched from an entity rank that does not hold it. -/
  | tag_does_not_exist (rank : Nat) (name : String)
  /-- A tag was fetched as an array of reals but holds another type. -/
  | tag_wrong_type (rank : Nat) (name : String)
  deriving DecidableEq, Repr

/-- What a tag exposes: value type, component count, and stored values
(read only when the type is `OMEGA_H_REAL`). -/
structure TagBase where
  type : Omega_h_Type
  ncomps : Nat
  array : Reals

/-- The mesh, as far as `Omega_h_metric_input.cpp` looks at it: dimension,
vertex count, and the tags keyed by (entity rank, name). -/
structure Mesh where
  dim : Nat
  nverts : Nat
  tags : Nat → String → Option TagBase

/-- The entity rank of vertices. -/
def VERT : Nat := 0

/-- Modelled from the spec: `Mesh::has_tag` (not under src/), the mesh
collaborator's "tagged-field get keyed by (entity rank, name)": whether the
rank holds a tag of that name. -/
def Mesh.has_tag (mesh : Mesh) (rank : Nat) (name : String) : Bool :=
  (mesh.tags rank name).isSome

/-- Modelled from the spec: `Mesh::get_tagbase` (not under src/): fetches the
named tag of the rank, and fails (fatal, "tag absent") when the rank does not
hold it. -/
def Mesh.get_tagbase (mesh : Mesh) (rank : Nat) (name : String) :
    Except Failure TagBase :=
  match mesh.tags rank name with
  | some tagbase => .ok tagbase
  | none => .error (.tag_does_not_exist rank name)

/-- Modelled from the spec: `Mesh::get_array<Real>` (not under src/): "fetch
the named nodal tag verbatim; fails with MissingField if absent"; a tag of
another value type is not an array of reals. -/
def Mesh.get_array (mesh : Mesh) (rank : Nat) (name : String) :
    Except Failure Reals :=
  match mesh.get_tagbase rank name with
  | .error f => .error f
  | .ok tagbase =>
    if tagbase.type = .OMEGA_H_REAL then .ok tagbase.array
    else .error (.tag_wrong_type rank name)

/-- Modelled from the spec: `symm_ncomps` (not under src/): the component
count of a symmetric `dim × dim` tensor. -/
def symm_ncomps (dim : Nat) : Nat := dim * (dim + 1) / 2

/-- The library routines called by the two functions and defined elsewhere
in the library; they are parameters of the development. -/
structure Externals where
  derive_element_gradients : Mesh → Reals → Reals
  project_by_fit : Mesh → Reals → Reals
  derive_element_hessians : Mesh → Reals → Reals
  metric_from_hessians : Nat → Reals → ℚ → Reals
  get_proximity_isos : Mesh → ℚ → Reals
  get_curvature_isos : Mesh → ℚ → Reals
  get_metrics_dim : Nat → Reals → Nat
  resize_symms : Reals → Nat → Nat → Reals
  multiply_each_by : ℚ → Reals → Reals
  clamp_metrics : Nat → Reals → ℚ → ℚ → Reals
  intersect_metrics : Reals → Reals → Reals

/-! ## automagic_hessian -/

/-- The local enumeration of `automagic_hessian`. -/
inductive State where
  | INVALID
  | NODAL_SCALAR
  | ELEM_GRADIENT
  | NODAL_GRADIENT
  | ELEM_HESSIAN
  | NODAL_HESSIAN
  deriving DecidableEq, Repr

/-- The three recovery stages that the switch of `automagic_hessian` calls. -/
inductive Stage where
  | derive_element_gradients
  | project_by_fit
  | derive_element_hessians
  deriving DecidableEq, Repr

/-- Lines 17-40 of `automagic_hessian`: the state. Each branch ends with the
declaration `Reals data = to<Real>(tagbase)->array();` of a variable that is
local to the block and ends with it: the read has no effect outside the
block, and the result of these lines is the state alone. The second branch
fetches the tag from `VERT`, as the source does. -/
def classify (mesh : Mesh) (name : String) : Except Failure State :=
  let dim := mesh.dim
  if mesh.has_tag VERT name then
    match mesh.get_tagbase VERT name with
    | .error f => .error f
    | .ok tagbase =>
      if tagbase.type = .OMEGA_H_REAL then
        if tagbase.ncomps = 1 then .ok State.NODAL_SCALAR
        else if tagbase.ncomps = dim then .ok State.NODAL_GRADIENT
        else if tagbase.ncomps = symm_ncomps dim then .ok State.NODAL_HESSIAN
        else .ok State.INVALID
      else .ok State.INVALID
  else if mesh.has_tag dim name then
    match mesh.get_tagbase VERT name with
    | .error f => .error f
    | .ok tagbase =>
      if tagbase.type = .OMEGA_H_REAL then
        if tagbase.ncomps = dim then .ok State.ELEM_GRADIENT
        else if tagbase.ncomps = symm_ncomps dim then .ok State.ELEM_HESSIAN
        else .ok State.INVALID
      else .ok State.INVALID
  else .ok State.INVALID

/-- The variable `data` that the switch of `automagic_hessian` reads and
assigns and that the final call receives. No declaration of it is in scope
there: the declarations of lines 28 and 38 are local to their blocks, so the
values of the tag do not reach the switch, and no statement before the switch
assigns it. It is modelled as a default-constructed array, which is empty. -/
def unassigned_data : Reals := []

/-- The body of the switch, lines 46-58: each case label with the statement
that follows it, in source order (the label `NODAL_GRADIENT` occurs twice;
the last label has no statement). -/
def switch_body : List (State × Option Stage) :=
  [ (.NODAL_SCALAR, some .derive_element_gradients),
    (.ELEM_GRADIENT, some .project_by_fit),
    (.NODAL_GRADIENT, some .derive_element_hessians),
    (.NODAL_GRADIENT, some .derive_element_hessians),
    (.ELEM_HESSIAN, some .project_by_fit),
    (.NODAL_HESSIAN, none) ]

/-- A switch without `break`: control jumps to the first label equal to the
state and runs every statement from there to the end of the body. -/
def fallthrough (state : State) : List Stage :=
  ((switch_body.dropWhile (fun c => decide (c.1 ≠ state))).map (fun c => c.2)).reduceOption

/-- One statement `data = stage(mesh, data)`. -/
def apply_stage (ext : Externals) (mesh : Mesh) (data : Reals) : Stage → Reals
  | .derive_element_gradients => ext.derive_element_gradients mesh data
  | .project_by_fit => ext.project_by_fit mesh data
  | .derive_element_hessians => ext.derive_element_hessians mesh data

/-- The statements of a list of stages, run in order. -/
def run_stages (ext : Externals) (mesh : Mesh) (stages : List Stage) (data : Reals) : Reals :=
  stages.foldl (apply_stage ext mesh) data

/-- The function `automagic_hessian(mesh, name, knob)`. -/
def automagic_hessian (ext : Externals) (mesh : Mesh) (name : String) (knob : ℚ) :
    Except Failure Reals :=
  match classify mesh name with
  | .error f => .error f
  | .ok state =>
    if state = State.INVALID then .error (.cannot_turn_into_hessian name)
    else
      let data := unassigned_data
      .ok (ext.metric_from_hessians mesh.dim (run_stages ext mesh (fallthrough state) data) knob)

/-! ## generate_metric -/

/-- The kinds of metric source (`Omega_h_Source`). -/
inductive Omega_h_Source where
  | OMEGA_H_HESSIAN
  | OMEGA_H_GIVEN
  | OMEGA_H_PROXIMITY
  | OMEGA_H_CURVATURE
  deriving DecidableEq, Repr

/-- One metric source (`MetricSource`). -/
structure MetricSource where
  kind : Omega_h_Source
  tag_name : String
  knob : ℚ

/-- The input of `generate_metric` (`MetricInput`). -/
structure MetricInput where
  sources : List MetricSource
  should_limit_lengths : Bool
  min_length : ℚ
  max_length : ℚ

/-- The switch on `source.kind`, lines 78-91. -/
def evaluate_source (ext : Externals) (mesh : Mesh) (source : MetricSource) :
    Except Failure Reals :=
  match source.kind with
  | .OMEGA_H_HESSIAN => automagic_hessian ext mesh source.tag_name source.knob
  | .OMEGA_H_GIVEN => mesh.get_array VERT source.tag_name
  | .OMEGA_H_PROXIMITY => .ok (ext.get_proximity_isos mesh source.knob)
  | .OMEGA_H_CURVATURE => .ok (ext.get_curvature_isos mesh source.knob)

/-- The loop over the sources, lines 76-96, from a given value of
`(original_metrics, metric_dim)`. -/
def collect_sources (ext : Externals) (mesh : Mesh) (n : Nat) :
    List MetricSource → List Reals × Nat → Except Failure (List Reals × Nat)
  | [], acc => .ok acc
  | source :: rest, (original_metrics, metric_dim) =>
    match evaluate_source ext mesh source with
    | .error f => .error f
    | .ok metrics =>
      let metric_dim :=
        if metric_dim = 1 ∧ ext.get_metrics_dim n metrics > 1 then mesh.dim else metric_dim
      collect_sources ext mesh n rest (original_metrics ++ [metrics], metric_dim)

/-- Lines 74-96: `original_metrics` starts empty and `metric_dim` at 1. -/
def original_metrics_and_dim (ext : Externals) (mesh : Mesh) (input : MetricInput) :
    Except Failure (List Reals × Nat) :=
  collect_sources ext mesh mesh.nverts input.sources ([], 1)

/-- The body of the inner `for` loop, lines 101-111, for one index `i`. -/
def combine_one (ext : Externals) (input : MetricInput) (n metric_dim : Nat) (scalar : ℚ)
    (original_metrics : List Reals) (i : Nat) (metrics : Reals) : Reals :=
  let in_metrics := original_metrics.getD i []
  let in_metrics := ext.resize_symms in_metrics (ext.get_metrics_dim n in_metrics) metric_dim
  let in_metrics := ext.multiply_each_by scalar in_metrics
  let in_metrics :=
    if input.should_limit_lengths then
      ext.clamp_metrics n in_metrics input.min_length input.max_length
    else in_metrics
  if i ≠ 0 then ext.intersect_metrics metrics in_metrics else in_metrics

/-- The inner `for (; i < original_metrics.size(); ++i)`, lines 100-112; it
returns the final `i` and `metrics`. -/
def combine_from (ext : Externals) (input : MetricInput) (n metric_dim : Nat) (scalar : ℚ)
    (original_metrics : List Reals) : Nat → Nat → Reals → Nat × Reals
  | 0, i, metrics => (i, metrics)
  | todo + 1, i, metrics =>
    if i < original_metrics.length then
      combine_from ext input n metric_dim scalar original_metrics todo (i + 1)
        (combine_one ext input n metric_dim scalar original_metrics i metrics)
    else (i, metrics)

/-- What a run of `generate_metric` has produced once the given number of
iterations of its `while` loop are spent. -/
inductive Outcome where
  /-- A `return` statement was reached. -/
  | returned (metrics : Reals)
  /-- The run was aborted. -/
  | failed (f : Failure)
  /-- Control is still inside the `while (1)` loop. -/
  | looping
  deriving DecidableEq, Repr

/-- The loop `while (1) { ... }`, lines 98-113. The body declares `metrics`,
runs the inner loop and ends; it has no `break` and no `return`, so the next
iteration follows. The counter `i` is not declared inside the loop; it is
modelled as a variable of the function that keeps its value. -/
def scale_loop (ext : Externals) (input : MetricInput) (n metric_dim : Nat) (scalar : ℚ)
    (original_metrics : List Reals) : Nat → Nat → Outcome
  | 0, _ => .looping
  | fuel + 1, i =>
    let r := combine_from ext input n metric_dim scalar original_metrics
      (original_metrics.length - i) i []
    scale_loop ext input n metric_dim scalar original_metrics fuel r.1

/-- The function `generate_metric(mesh, input)`, with the number of iterations of the
`while` loop that the run may spend. -/
def generate_metric (ext : Externals) (fuel : Nat) (mesh : Mesh) (input : MetricInput) :
    Outcome :=
  if input.should_limit_lengths = true ∧ ¬ (input.min_length ≤ input.max_length) then
    .failed .check_failed
  else
    let n := mesh.nverts
    if input.sources.length = 0 then
      if input.should_limit_lengths then .returned (List.replicate n input.max_length)
      else .failed .no_sources_or_limits
    else
      match original_metrics_and_dim ext mesh input with
      | .error f => .failed f
      | .ok (original_metrics, metric_dim) =>
        scale_loop ext input n metric_dim 1 original_metrics fuel 0

end Omega_h

namespace osh

/-- Read-only array of reals (`Reals`); `Write<Real>` is modelled by the same
type, each write giving a new list. -/
abbrev Reals := List ℚ

/-- Array of local indices (`LOs`). -/
abbrev LOs := List Nat

/-- A vector of three reals (`Vector<3>`). -/
structure Vector3 where
  x : ℚ
  y : ℚ
  z : ℚ
  deriving DecidableEq, Repr

/-- The constructor `vector_3(x, y, z)`. -/
def vector_3 (x y z : ℚ) : Vector3 := ⟨x, y, z⟩

/-- Componentwise difference of two vectors (`a - b`). -/
def Vector3.sub (a b : Vector3) : Vector3 := ⟨a.x - b.x, a.y - b.y, a.z - b.z⟩

/-- Componentwise sum of two vectors (`a + b`). -/
def Vector3.add (a b : Vector3) : Vector3 := ⟨a.x + b.x, a.y + b.y, a.z + b.z⟩

/-- A 3 × 3 matrix (`Matrix<3,3>`), represented by its product with a vector:
`rm * x` is `rm x`. -/
abbrev Matrix3 := Vector3 → Vector3

/-- The constant and the routines of the library that the cases call and
that are defined elsewhere; they are parameters of the development. -/
structure Lib where
  /-- The constant `PI`. -/
  PI : ℚ
  /-- The call `rotate(angle, axis)`: the rotation matrix. -/
  rotate : ℚ → Vector3 → Matrix3
  /-- The call `get_vector<3>(coords, v)`: the coordinates of vertex `v`. -/
  get_vector : Reals → Nat → Vector3

/-- The mesh, as far as `imr_cases.cpp` looks at it: dimension, vertex count,
coordinates, and the classification closure, an external predicate (model
entity id, vertex) telling whether the vertex is classified on that entity
or on anything it bounds. -/
structure Mesh where
  dim : Nat
  nverts : Nat
  coords : Reals
  class_closure : Int → Nat → Bool

/-- The ways in which a step of `run_case` can abort. -/
inductive Failure where
  /-- The message "object N not in either assembly". -/
  | object_not_in_either_assembly (object : Int)
  /-- The size check of `map_into` did not hold. -/
  | check_failed
  deriving DecidableEq, Repr

/-- The constructor `Write<Real>(size, value)`. The one-argument form leaves
the entries unspecified; the cases write every entry before returning, and
the model starts them at `0`. -/
def Write (size : Nat) (value : ℚ) : Reals := List.replicate size value

/-- Modelled from the spec: `set_vector<3>` (access.hpp, not under src/): it
stores the three components of the displacement of subset entry `ov` at
positions `ov * 3`, `ov * 3 + 1`, `ov * 3 + 2` of the displacement array. -/
def set_vector (out : Reals) (ov : Nat) (v : Vector3) : Reals :=
  ((out.set (ov * 3) v.x).set (ov * 3 + 1) v.y).set (ov * 3 + 2) v.z

/-- The call `parallel_for(n, f)`: `f` is run for every index below `n`; each
run writes the entries of its own index only. -/
def parallel_for (n : Nat) (f : Nat → Reals → Reals) (out : Reals) : Reals :=
  (List.range n).foldl (fun out ov => f ov out) out

/-- Insertion into a `std::set<I32>`: the elements are kept in increasing
order and an element already present is not inserted again. -/
def set_insert (x : Int) : List Int → List Int
  | [] => [x]
  | y :: ys =>
    if x < y then x :: y :: ys
    else if x = y then y :: ys
    else y :: set_insert x ys

/-- Construction of a `std::set<I32>` from an initializer list. -/
def std_set (init : List Int) : List Int :=
  init.foldl (fun s x => set_insert x s) []

/-- The function `TranslateBall::static_motion`. -/
def TranslateBall.static_motion (ov2v : LOs) : Reals :=
  let out := Write (ov2v.length * 3) 0
  parallel_for ov2v.length (fun ov out => set_vector out ov (vector_3 (2 / 100) 0 0)) out

/-- The function `RotateBall::static_motion`. -/
def RotateBall.static_motion (lib : Lib) (m : Mesh) (ov2v : LOs) : Reals :=
  let coords := m.coords
  let out := Write (ov2v.length * 3) 0
  let rot := lib.rotate (lib.PI / 16) (vector_3 0 0 1)
  parallel_for ov2v.length (fun ov out =>
    let v := ov2v.getD ov 0
    let x := lib.get_vector coords v
    let mid := vector_3 (5 / 10) (5 / 10) 0
    let x := x.sub mid
    let x2 := rot x
    let w := x2.sub x
    set_vector out ov w) out

/-- The function `CollideBalls::static_motion`. -/
def CollideBalls.static_motion (object : Int) (ov2v : LOs) : Reals :=
  let out := Write (ov2v.length * 3) 0
  parallel_for ov2v.length (fun ov out =>
    if object = 72 then set_vector out ov (vector_3 0 0 (2 / 100))
    else set_vector out ov (vector_3 0 0 (-(2 / 100)))) out

/-- The function `CylinderTube::static_motion`. -/
def CylinderTube.static_motion (ov2v : LOs) : Reals :=
  let out := Write (ov2v.length * 3) 0
  parallel_for ov2v.length (fun ov out => set_vector out ov (vector_3 0 0 (2 / 100))) out

/-- The member `assembly0` of `TwinRotor`. -/
def TwinRotor.assembly0 : List Int := std_set [66, 98, 126]

/-- The member `assembly1` of `TwinRotor`. -/
def TwinRotor.assembly1 : List Int := std_set [254, 253, 252]

/-- The function `TwinRotor::objects`: the elements of `assembly0`, then those of
`assembly1`, each set in its iteration order. -/
def TwinRotor.objects : List Int := TwinRotor.assembly0 ++ TwinRotor.assembly1

/-- The function `TwinRotor::static_motion`. -/
def TwinRotor.static_motion (lib : Lib) (m : Mesh) (ov2v : LOs) (center : Vector3)
    (dir : ℚ) : Reals :=
  let coords := m.coords
  let out := Write (ov2v.length * 3) 0
  let rm := lib.rotate (dir * lib.PI / 8) (vector_3 0 0 1)
  parallel_for ov2v.length (fun ov out =>
    let v := ov2v.getD ov 0
    let x := lib.get_vector coords v
    set_vector out ov (((rm (x.sub center)).add center).sub x)) out

/-- The function `TwinRotor::motion`; `count(object)` is membership in the set. -/
def TwinRotor.motion (lib : Lib) (m : Mesh) (object : Int) (ov2v : LOs) :
    Except Failure Reals :=
  if object ∈ TwinRotor.assembly0 then
    .ok (TwinRotor.static_motion lib m ov2v (vector_3 (-(25 / 100)) 0 0) 1)
  else if object ∈ TwinRotor.assembly1 then
    .ok (TwinRotor.static_motion lib m ov2v (vector_3 (25 / 100) 0 0) (-1))
  else
    .error (.object_not_in_either_assembly object)

/-- The five variants of `Case`. -/
inductive Case where
  | TranslateBall
  | RotateBall
  | CollideBalls
  | CylinderTube
  | TwinRotor
  deriving DecidableEq, Repr

/-- The virtual `file_name()`. -/
def Case.file_name : Case → String
  | .TranslateBall => "ball_in_cube.msh"
  | .RotateBall => "ball_in_cube.msh"
  | .CollideBalls => "balls_in_box.msh"
  | .CylinderTube => "cylinder_thru_tube.msh"
  | .TwinRotor => "twin_rotor.msh"

/-- The virtual `objects()`. -/
def Case.objects : Case → List Int
  | .TranslateBall => [72]
  | .RotateBall => [72]
  | .CollideBalls => [72, 110]
  | .CylinderTube => [73]
  | .TwinRotor => TwinRotor.objects

/-- The virtual `time_steps()`. -/
def Case.time_steps : Case → Nat
  | .TranslateBall => 12
  | .RotateBall => 16
  | .CollideBalls => 12
  | .CylinderTube => 12
  | .TwinRotor => 2

/-- The virtual `motion(m, step, object, ov2v)`. -/
def Case.motion (c : Case) (lib : Lib) (m : Mesh) (_step : Nat) (object : Int) (ov2v : LOs) :
    Except Failure Reals :=
  match c with
  | .TranslateBall => .ok (TranslateBall.static_motion ov2v)
  | .RotateBall => .ok (RotateBall.static_motion lib m ov2v)
  | .CollideBalls => .ok (CollideBalls.static_motion object ov2v)
  | .CylinderTube => .ok (CylinderTube.static_motion ov2v)
  | .TwinRotor => TwinRotor.motion lib m object ov2v

/-- The vertex subset of an object, lines 196-197: `mark_class_closure` marks
the vertices of the classification closure of the model entity and
`collect_marked` lists the marked vertices in increasing order. -/
def verts_on_obj (mesh : Mesh) (obj : Int) : LOs :=
  (List.range mesh.nverts).filter (fun v => mesh.class_closure obj v)

/-- Modelled from the spec: `map_into` (map.hpp, not under src/): "scatter
obj_motion into the global field at the subset's indices", `width` entries
per index; a "malformed motion array size" is an assertion violation that
aborts the run. -/
def map_into (a_data : Reals) (a2b : LOs) (b_data : Reals) (width : Nat) :
    Except Failure Reals :=
  if a_data.length ≠ a2b.length * width then .error .check_failed
  else
    .ok ((List.range a2b.length).foldl (fun b_data a =>
      (List.range width).foldl (fun b_data j =>
        b_data.set (a2b.getD a 0 * width + j) (a_data.getD (a * width + j) 0)) b_data) b_data)

/-- The loop over the objects, lines 195-200, from a given `motion_w`. -/
def scatter_objects (lib : Lib) (c : Case) (mesh : Mesh) (step : Nat) :
    List Int → Reals → Except Failure Reals
  | [], motion_w => .ok motion_w
  | obj :: objs, motion_w =>
    let ov2v := verts_on_obj mesh obj
    match c.motion lib mesh step obj ov2v with
    | .error f => .error f
    | .ok obj_motion =>
      match map_into obj_motion ov2v motion_w mesh.dim with
      | .error f => .error f
      | .ok motion_w => scatter_objects lib c mesh step objs motion_w

/-- Lines 193-201 of `run_case`: the boundary motion field of one step, as
handed to `solve_laplacian`. -/
def boundary_motion (lib : Lib) (c : Case) (mesh : Mesh) (step : Nat) :
    Except Failure Reals :=
  let objs := c.objects
  let motion_w := Write (mesh.nverts * mesh.dim) 0
  scatter_objects lib c mesh step objs motion_w

/-- The last object of the list whose classification closure contains the
vertex `v`, if there is one. -/
def last_writer (mesh : Mesh) (objs : List Int) (v : Nat) : Option Int :=
  (objs.filter (fun obj => mesh.class_closure obj v)).getLast?

/-- Component `j` of the displacement that `motion` gave to vertex `v` for the
object: `v` is entry number `indexOf v` of the object's vertex subset, and
the displacement array holds three components per entry. -/
def displacement (lib : Lib) (c : Case) (mesh : Mesh) (step : Nat) (obj : Int) (v j : Nat) :
    ℚ :=
  match c.motion lib mesh step obj (verts_on_obj mesh obj) with
  | .ok obj_motion => obj_motion.getD ((verts_on_obj mesh obj).indexOf v * 3 + j) 0
  | .error _ => 0

/-! ## Concrete inputs -/

/-- A library instance with `PI` set to 3, every rotation the identity
matrix, and every vertex at the origin. -/
def plain_lib : Lib where
  PI := 3
  rotate := fun _ _ x => x
  get_vector := fun _ _ => vector_3 0 0 0

/-- A library instance with `PI` set to 3, whose `rotate` is a quarter turn
about the third axis, counterclockwise for a positive angle and clockwise for
a negative one, and whose `get_vector` reads the three coordinates of the
vertex. -/
def turning_lib : Lib where
  PI := 3
  rotate := fun angle _ x =>
    if 0 < angle then vector_3 (-x.y) x.x x.z
    else if angle < 0 then vector_3 x.y (-x.x) x.z
    else x
  get_vector := fun coords v =>
    vector_3 (coords.getD (v * 3) 0) (coords.getD (v * 3 + 1) 0) (coords.getD (v * 3 + 2) 0)

/-- A two-dimensional mesh of two vertices; vertex 1 is in the closure of
object 72 and no other vertex is in the closure of any object. -/
def flat_mesh : Mesh where
  dim := 2
  nverts := 2
  coords := [0, 0, 1, 0]
  class_closure := fun obj v => decide (obj = 72 ∧ v = 1)

/-- A three-dimensional mesh of three vertices; vertices 0 and 2 are in the
closure of object 72, vertex 2 is also in the closure of object 110, and
vertex 1 is in no closure. -/
def solid_mesh : Mesh where
  dim := 3
  nverts := 3
  coords := [0, 0, 0, 1, 0, 0, 0, 1, 0]
  class_closure := fun obj v => decide ((obj = 72 ∧ (v = 0 ∨ v = 2)) ∨ (obj = 110 ∧ v = 2))

end osh

namespace Omega_h

/-! ## Concrete inputs -/

/-- Externals that return their array argument unchanged (or no array). -/
def plain_externals : Externals where
  derive_element_gradients := fun _ data => data
  project_by_fit := fun _ data => data
  derive_element_hessians := fun _ data => data
  metric_from_hessians := fun _ data _ => data
  get_proximity_isos := fun _ _ => []
  get_curvature_isos := fun _ _ => []
  get_metrics_dim := fun _ _ => 1
  resize_symms := fun data _ _ => data
  multiply_each_by := fun _ data => data
  clamp_metrics := fun _ data _ _ => data
  intersect_metrics := fun data _ => data

/-- A two-dimensional mesh of three vertices whose only tags are on the
vertices: every name is a tag of `ncomps` real components. -/
def nodal_mesh (ncomps : Nat) (array : Reals) : Mesh where
  dim := 2
  nverts := 3
  tags := fun rank _ => if rank = 0 then some ⟨.OMEGA_H_REAL, ncomps, array⟩ else none

/-- A two-dimensional mesh of three vertices whose only tags are on the
elements (rank 2): every name is a tag of `ncomps` real components. -/
def elem_mesh (ncomps : Nat) (array : Reals) : Mesh where
  dim := 2
  nverts := 3
  tags := fun rank _ => if rank = 2 then some ⟨.OMEGA_H_REAL, ncomps, array⟩ else none

/-- A mesh of `n` vertices without tags. -/
def bare_mesh (n : Nat) : Mesh where
  dim := 2
  nverts := n
  tags := fun _ _ => none

/-- An input with one given source, limiting disabled. -/
def one_given_source : MetricInput where
  sources := [⟨.OMEGA_H_GIVEN, "size", 1⟩]
  should_limit_lengths := false
  min_length := 0
  max_length := 0

/-- An input without sources. -/
def no_sources (limit : Bool) (min_length max_length : ℚ) : MetricInput where
  sources := []
  should_limit_lengths := limit
  min_length := min_length
  max_length := max_length

/-- Externals whose `get_metrics_dim` is 1 on an array of one entry per vertex
and 2 on any other array, and whose proximity sizes are the knob at every
vertex. -/
def sized_externals : Externals where
  derive_element_gradients := fun _ data => data
  project_by_fit := fun _ data => data
  derive_element_hessians := fun _ data => data
  metric_from_hessians := fun _ data _ => data
  get_proximity_isos := fun mesh knob => List.replicate mesh.nverts knob
  get_curvature_isos := fun mesh knob => List.replicate mesh.nverts knob
  get_metrics_dim := fun n data => if data.length = n then 1 else 2
  resize_symms := fun data _ _ => data
  multiply_each_by := fun _ data => data
  clamp_metrics := fun _ data _ _ => data
  intersect_metrics := fun data _ => data

/-- Externals whose three recovery stages append their own mark to the array
(1 for the gradient derivation, 2 for the fit, 3 for the Hessian
derivation), so that the array records the stages in the order applied. -/
def tracing_externals : Externals where
  derive_element_gradients := fun _ data => data ++ [1]
  project_by_fit := fun _ data => data ++ [2]
  derive_element_hessians := fun _ data => data ++ [3]
  metric_from_hessians := fun _ data _ => data
  get_proximity_isos := fun _ _ => []
  get_curvature_isos := fun _ _ => []
  get_metrics_dim := fun _ _ => 1
  resize_symms := fun data _ _ => data
  multiply_each_by := fun _ data => data
  clamp_metrics := fun _ data _ _ => data
  intersect_metrics := fun data _ => data

/-- An input with a proximity source followed by a given source. -/
def proximity_then_given : MetricInput where
  sources := [⟨.OMEGA_H_PROXIMITY, "", 1⟩, ⟨.OMEGA_H_GIVEN, "metric", 1⟩]
  should_limit_lengths := false
  min_length := 0
  max_length := 0

end Omega_h

namespace Omega_h

/-! ## Theorems on `generate_metric` and `automagic_hessian` -/

theorem scale_loop_looping (ext : Externals) (input : MetricInput) (n metric_dim : Nat)
    (scalar : ℚ) (original_metrics : List Reals) (fuel : Nat) :
    ∀ i, scale_loop ext input n metric_dim scalar original_metrics fuel i = .looping := by
  induction fuel with
  | zero => intro i; rfl
  | succ fuel ih => intro i; simp only [scale_loop]; exact ih _

/-- C1: with at least one source, the preconditions met and every source
evaluated, `generate_metric` is still inside its `while (1)` loop after any
number of iterations: it reaches no `return` and no failure. -/
theorem generate_metric_scale_loop_never_returns (ext : Externals) (fuel : Nat) (mesh : Mesh)
    (input : MetricInput) (hsrc : input.sources ≠ [])
    (hpre : input.should_limit_lengths = false ∨ input.min_length ≤ input.max_length)
    (heval : ∃ r, original_metrics_and_dim ext mesh input = .ok r) :
    generate_metric ext fuel mesh input = .looping := by
  obtain ⟨⟨oms, md⟩, hr⟩ := heval
  have h1 : ¬ (input.should_limit_lengths = true ∧ ¬ (input.min_length ≤ input.max_length)) := by
    rintro ⟨hl, hm⟩
    rcases hpre with h | h
    · rw [h] at hl; exact Bool.noConfusion hl
    · exact hm h
  have h2 : ¬ (input.sources.length = 0) := by
    intro h; exact hsrc (List.length_eq_zero.mp h)
  unfold generate_metric
  rw [if_neg h1]
  simp only [if_neg h2, hr]
  exact scale_loop_looping ext input _ _ _ _ fuel 0

/-- Witness of C1: one given source on a mesh that holds the tag. -/
theorem generate_metric_scale_loop_never_returns_witness :
    one_given_source.sources ≠ [] ∧
    (∃ r, original_metrics_and_dim plain_externals (nodal_mesh 1 [1, 1, 1]) one_given_source
      = .ok r) ∧
    generate_metric plain_externals 1000 (nodal_mesh 1 [1, 1, 1]) one_given_source = .looping :=
  ⟨by simp [one_given_source], ⟨([[1, 1, 1]], 1), rfl⟩,
    generate_metric_scale_loop_never_returns plain_externals 1000 (nodal_mesh 1 [1, 1, 1])
      one_given_source (by simp [one_given_source]) (Or.inl rfl) ⟨([[1, 1, 1]], 1), rfl⟩⟩

theorem fallthrough_nodal_scalar :
    fallthrough .NODAL_SCALAR =
      [.derive_element_gradients, .project_by_fit, .derive_element_hessians,
        .derive_element_hessians, .project_by_fit] := by
  decide

theorem fallthrough_nodal_hessian : fallthrough .NODAL_HESSIAN = [] := by
  decide

/-- C2, as stated, fails: on a nodal scalar tag the switch of
`automagic_hessian` runs `project_by_fit` twice and `derive_element_hessians`
twice, not once each. -/
theorem automagic_hessian_nodal_scalar_not_one_each :
    classify (nodal_mesh 1 [1, 2, 3]) "u" = .ok .NODAL_SCALAR ∧
    ¬ ((fallthrough .NODAL_SCALAR).count .derive_element_gradients = 1 ∧
       (fallthrough .NODAL_SCALAR).count .project_by_fit = 1 ∧
       (fallthrough .NODAL_SCALAR).count .derive_element_hessians = 1) := by
  refine ⟨rfl, ?_⟩
  decide

/-- C2, amended: on a tag classified NODAL_SCALAR the stages that
`automagic_hessian` runs are, in order, `derive_element_gradients` (once, on
the variable `data`), `project_by_fit` on its result (the element gradients),
`derive_element_hessians` (at least once), and last `project_by_fit` on the
result of the Hessian derivation (the element Hessians), so `project_by_fit`
runs exactly twice; the result goes to `metric_from_hessians`. On a tag
classified NODAL_HESSIAN no stage runs and `data` goes unchanged to
`metric_from_hessians`. -/
theorem automagic_hessian_stage_counts (ext : Externals) (mesh : Mesh) (name : String)
    (knob : ℚ) :
    (classify mesh name = .ok .NODAL_SCALAR →
      (∃ n, 1 ≤ n ∧
        fallthrough .NODAL_SCALAR =
          [.derive_element_gradients, .project_by_fit] ++
            List.replicate n .derive_element_hessians ++ [.project_by_fit] ∧
        ∀ data, run_stages ext mesh (fallthrough .NODAL_SCALAR) data =
          ext.project_by_fit mesh
            ((ext.derive_element_hessians mesh)^[n]
              (ext.project_by_fit mesh (ext.derive_element_gradients mesh data)))) ∧
      (fallthrough .NODAL_SCALAR).count .derive_element_gradients = 1 ∧
      (fallthrough .NODAL_SCALAR).count .project_by_fit = 2 ∧
      automagic_hessian ext mesh name knob =
        .ok (ext.metric_from_hessians mesh.dim
          (run_stages ext mesh (fallthrough .NODAL_SCALAR) unassigned_data) knob)) ∧
    (classify mesh name = .ok .NODAL_HESSIAN →
      fallthrough .NODAL_HESSIAN = [] ∧
      (∀ data, run_stages ext mesh (fallthrough .NODAL_HESSIAN) data = data) ∧
      automagic_hessian ext mesh name knob =
        .ok (ext.metric_from_hessians mesh.dim unassigned_data knob)) := by
  constructor
  · intro h
    refine ⟨⟨2, by decide, by decide, fun data => ?_⟩, by decide, by decide, ?_⟩
    · rw [fallthrough_nodal_scalar]
      rfl
    · simp [automagic_hessian, h]
  · intro h
    refine ⟨fallthrough_nodal_hessian, fun data => ?_, ?_⟩
    · rw [fallthrough_nodal_hessian]
      rfl
    · simp [automagic_hessian, h, fallthrough_nodal_hessian, run_stages]

/-- Witness of C2 (amended): a nodal scalar tag and a nodal Hessian tag on a
two-dimensional mesh, with externals that record the stages applied: on the
scalar tag the record is gradient, fit, Hessian, Hessian, fit; on the Hessian
tag it is empty. -/
theorem automagic_hessian_stage_counts_witness :
    automagic_hessian tracing_externals (nodal_mesh 1 [5, 6, 7]) "u" 1 = .ok [1, 2, 3, 3, 2] ∧
    (fallthrough .NODAL_SCALAR).count .project_by_fit = 2 ∧
    automagic_hessian tracing_externals (nodal_mesh 3 [5, 6, 7]) "h" 1 = .ok [] ∧
    automagic_hessian tracing_externals (nodal_mesh 3 [5, 6, 7]) "h" 1 =
      .ok (tracing_externals.metric_from_hessians (nodal_mesh 3 [5, 6, 7]).dim
        unassigned_data 1) :=
  ⟨rfl,
   ((automagic_hessian_stage_counts tracing_externals (nodal_mesh 1 [5, 6, 7]) "u" 1).1
      rfl).2.2.1,
   rfl,
   ((automagic_hessian_stage_counts tracing_externals (nodal_mesh 3 [5, 6, 7]) "h" 1).2
      rfl).2.2⟩

theorem collect_sources_spec (ext : Externals) (mesh : Mesh) (n : Nat)
    (sources : List MetricSource) :
    ∀ (oms : List Reals) (md0 : Nat) (ms : List Reals) (md : Nat),
      collect_sources ext mesh n sources (oms, md0) = .ok (ms, md) →
      ∃ new : List Reals, ms = oms ++ new ∧
        List.Forall₂ (fun s m => evaluate_source ext mesh s = .ok m) sources new ∧
        md = if md0 = 1 then
            (if ∃ m ∈ new, ext.get_metrics_dim n m > 1 then mesh.dim else 1)
          else md0 := by
  induction sources with
  | nil =>
    intro oms md0 ms md h
    simp only [collect_sources, Except.ok.injEq, Prod.mk.injEq] at h
    refine ⟨[], by simp [h.1], List.Forall₂.nil, ?_⟩
    by_cases h0 : md0 = 1 <;> simp [h0, ← h.2]
  | cons s rest ih =>
    intro oms md0 ms md h
    simp only [collect_sources] at h
    cases hs : evaluate_source ext mesh s with
    | error f => simp [hs] at h
    | ok metrics =>
      simp only [hs] at h
      by_cases h0 : md0 = 1
      · by_cases h1 : ext.get_metrics_dim n metrics > 1
        · rw [if_pos ⟨h0, h1⟩] at h
          obtain ⟨new, hms, hall, hmd⟩ := ih _ _ _ _ h
          refine ⟨metrics :: new, by simp [hms], List.Forall₂.cons hs hall, ?_⟩
          have hex : ∃ m ∈ metrics :: new, ext.get_metrics_dim n m > 1 :=
            ⟨metrics, List.mem_cons_self _ _, h1⟩
          rw [if_pos h0, if_pos hex, hmd]
          by_cases hd : mesh.dim = 1
          · rw [if_pos hd]; split <;> simp [hd]
          · rw [if_neg hd]
        · have hc : ¬ (md0 = 1 ∧ ext.get_metrics_dim n metrics > 1) := fun hh => h1 hh.2
          rw [if_neg hc] at h
          obtain ⟨new, hms, hall, hmd⟩ := ih _ _ _ _ h
          refine ⟨metrics :: new, by simp [hms], List.Forall₂.cons hs hall, ?_⟩
          rw [if_pos h0] at hmd
          rw [if_pos h0, hmd]
          have hiff : (∃ m ∈ metrics :: new, ext.get_metrics_dim n m > 1) ↔
              (∃ m ∈ new, ext.get_metrics_dim n m > 1) := by
            constructor
            · rintro ⟨m, hm, hgt⟩
              rcases List.mem_cons.mp hm with rfl | hm
              · exact absurd hgt h1
              · exact ⟨m, hm, hgt⟩
            · rintro ⟨m, hm, hgt⟩
              exact ⟨m, List.mem_cons_of_mem _ hm, hgt⟩
          simp only [hiff]
      · have hc : ¬ (md0 = 1 ∧ ext.get_metrics_dim n metrics > 1) := fun hh => h0 hh.1
        rw [if_neg hc] at h
        obtain ⟨new, hms, hall, hmd⟩ := ih _ _ _ _ h
        refine ⟨metrics :: new, by simp [hms], List.Forall₂.cons hs hall, ?_⟩
        rw [if_neg h0] at hmd
        rw [if_neg h0, hmd]

/-- C3: when the loop over the sources of `generate_metric` succeeds, it has
evaluated every source in order, and the `metric_dim` it leaves is 1 if every
evaluated array has `get_metrics_dim` 1 and is the mesh dimension if at least
one evaluated array, at any position, has `get_metrics_dim` above 1. -/
theorem generate_metric_metric_dim (ext : Externals) (mesh : Mesh) (input : MetricInput)
    (original_metrics : List Reals) (metric_dim : Nat)
    (h : original_metrics_and_dim ext mesh input = .ok (original_metrics, metric_dim)) :
    List.Forall₂ (fun s m => evaluate_source ext mesh s = .ok m) input.sources
      original_metrics ∧
    ((∀ m ∈ original_metrics, ext.get_metrics_dim mesh.nverts m = 1) → metric_dim = 1) ∧
    ((∃ m ∈ original_metrics, ext.get_metrics_dim mesh.nverts m > 1) →
      metric_dim = mesh.dim) := by
  obtain ⟨new, hms, hall, hmd⟩ := collect_sources_spec ext mesh mesh.nverts input.sources
    [] 1 original_metrics metric_dim h
  simp only [List.nil_append] at hms
  subst hms
  simp only [if_true] at hmd
  refine ⟨hall, ?_, ?_⟩
  · intro hiso
    have hno : ¬ ∃ m ∈ original_metrics, ext.get_metrics_dim mesh.nverts m > 1 := by
      rintro ⟨m, hm, hgt⟩
      have := hiso m hm
      omega
    rw [if_neg hno] at hmd
    exact hmd
  · intro hex
    rw [if_pos hex] at hmd
    exact hmd

/-- Witness of C3: an isotropic proximity source followed by a given tensor
field on a two-dimensional mesh of three vertices. -/
theorem generate_metric_metric_dim_witness :
    original_metrics_and_dim sized_externals (nodal_mesh 3 [1, 0, 1, 1, 0, 1, 1, 0, 1])
        proximity_then_given
      = .ok ([[1, 1, 1], [1, 0, 1, 1, 0, 1, 1, 0, 1]], 2) ∧
    ((∃ m ∈ [[1, 1, 1], [1, 0, 1, 1, 0, 1, 1, 0, 1]],
        sized_externals.get_metrics_dim (nodal_mesh 3 [1, 0, 1, 1, 0, 1, 1, 0, 1]).nverts m > 1) →
      2 = (nodal_mesh 3 [1, 0, 1, 1, 0, 1, 1, 0, 1]).dim) :=
  ⟨rfl, (generate_metric_metric_dim sized_externals
      (nodal_mesh 3 [1, 0, 1, 1, 0, 1, 1, 0, 1]) proximity_then_given
      [[1, 1, 1], [1, 0, 1, 1, 0, 1, 1, 0, 1]] 2 rfl).2.2⟩

/-- C4: without sources, with limiting enabled and `min_length <= max_length`,
`generate_metric` returns, whatever the number of loop iterations allowed, an
array of `nverts` entries, each equal to `max_length`. -/
theorem generate_metric_no_sources_limited (ext : Externals) (fuel : Nat) (mesh : Mesh)
    (input : MetricInput) (hsrc : input.sources = [])
    (hlim : input.should_limit_lengths = true)
    (hle : input.min_length ≤ input.max_length) :
    ∃ metrics, generate_metric ext fuel mesh input = .returned metrics ∧
      metrics.length = mesh.nverts ∧ ∀ x ∈ metrics, x = input.max_length := by
  refine ⟨List.replicate mesh.nverts input.max_length, ?_, List.length_replicate _ _, ?_⟩
  · have h1 : ¬ (input.should_limit_lengths = true ∧ ¬ (input.min_length ≤ input.max_length)) :=
      fun hh => hh.2 hle
    unfold generate_metric
    rw [if_neg h1]
    simp [hsrc, hlim]
  · intro x hx
    exact List.eq_of_mem_replicate hx

/-- Witness of C4: `max_length = 0.1` on a mesh of four vertices. -/
theorem generate_metric_no_sources_limited_witness :
    generate_metric plain_externals 0 (bare_mesh 4) (no_sources true (1 / 100) (1 / 10))
      = .returned [1 / 10, 1 / 10, 1 / 10, 1 / 10] ∧
    ∃ metrics, generate_metric plain_externals 0 (bare_mesh 4)
        (no_sources true (1 / 100) (1 / 10)) = .returned metrics ∧
      metrics.length = (bare_mesh 4).nverts ∧
      ∀ x ∈ metrics, x = (no_sources true (1 / 100) (1 / 10)).max_length :=
  ⟨by simp [generate_metric, no_sources, bare_mesh]; norm_num,
   generate_metric_no_sources_limited plain_externals 0 (bare_mesh 4)
    (no_sources true (1 / 100) (1 / 10)) rfl rfl (by simp [no_sources]; norm_num)⟩

/-- C5: `generate_metric` fails on the check when limiting is enabled and
`min_length > max_length`, whatever the sources, the mesh and the externals;
and it fails with "no sources or limits given" when there is no source and
limiting is disabled. In both cases no array is returned. -/
theorem generate_metric_rejects_bad_input (ext : Externals) (fuel : Nat) (mesh : Mesh)
    (input : MetricInput) :
    (input.should_limit_lengths = true → input.min_length > input.max_length →
      generate_metric ext fuel mesh input = .failed .check_failed ∧
      ∀ metrics, generate_metric ext fuel mesh input ≠ .returned metrics) ∧
    (input.sources = [] → input.should_limit_lengths = false →
      generate_metric ext fuel mesh input = .failed .no_sources_or_limits ∧
      ∀ metrics, generate_metric ext fuel mesh input ≠ .returned metrics) := by
  constructor
  · intro hlim hgt
    have h : generate_metric ext fuel mesh input = .failed .check_failed := by
      unfold generate_metric
      rw [if_pos ⟨hlim, not_le.mpr hgt⟩]
    refine ⟨h, fun metrics => ?_⟩
    rw [h]; exact fun hh => Outcome.noConfusion hh
  · intro hsrc hlim
    have h : generate_metric ext fuel mesh input = .failed .no_sources_or_limits := by
      unfold generate_metric
      simp [hsrc, hlim]
    refine ⟨h, fun metrics => ?_⟩
    rw [h]; exact fun hh => Outcome.noConfusion hh

/-- Witness of C5: a non-empty source list with `min_length = 2 > 1 =
max_length`, and an empty source list with limiting disabled. -/
theorem generate_metric_rejects_bad_input_witness :
    generate_metric plain_externals 5 (bare_mesh 4)
        ⟨[⟨.OMEGA_H_GIVEN, "size", 1⟩], true, 2, 1⟩ = .failed .check_failed ∧
    generate_metric plain_externals 5 (bare_mesh 4) (no_sources false 1 2)
      = .failed .no_sources_or_limits :=
  ⟨((generate_metric_rejects_bad_input plain_externals 5 (bare_mesh 4)
      ⟨[⟨.OMEGA_H_GIVEN, "size", 1⟩], true, 2, 1⟩).1 rfl (by norm_num)).1,
   ((generate_metric_rejects_bad_input plain_externals 5 (bare_mesh 4)
      (no_sources false 1 2)).2 rfl rfl).1⟩

/-- C6: on a tag that is stored on the elements and not on the vertices,
`automagic_hessian` fetches the tag from the vertices and fails there; it
reaches neither ELEM_GRADIENT nor ELEM_HESSIAN, whatever the component
count, and reads nothing from the element storage. -/
theorem automagic_hessian_elem_tag_fetched_from_vertices (ext : Externals) (mesh : Mesh)
    (name : String) (knob : ℚ) (hvert : mesh.has_tag VERT name = false)
    (helem : mesh.has_tag mesh.dim name = true) :
    classify mesh name = .error (.tag_does_not_exist VERT name) ∧
    automagic_hessian ext mesh name knob = .error (.tag_does_not_exist VERT name) := by
  have hnone : mesh.tags VERT name = none := by
    simpa [Mesh.has_tag] using hvert
  have hc : classify mesh name = .error (.tag_does_not_exist VERT name) := by
    simp [classify, hvert, helem, Mesh.get_tagbase, hnone]
  exact ⟨hc, by simp [automagic_hessian, hc]⟩

/-- Witness of C6: a two-dimensional mesh with an element tag of two real
components (an element gradient). -/
theorem automagic_hessian_elem_tag_fetched_from_vertices_witness :
    (elem_mesh 2 [1, 2]).has_tag VERT "grad" = false ∧
    (elem_mesh 2 [1, 2]).has_tag (elem_mesh 2 [1, 2]).dim "grad" = true ∧
    automagic_hessian plain_externals (elem_mesh 2 [1, 2]) "grad" 1
      = .error (.tag_does_not_exist VERT "grad") :=
  ⟨rfl, rfl, (automagic_hessian_elem_tag_fetched_from_vertices plain_externals
    (elem_mesh 2 [1, 2]) "grad" 1 rfl rfl).2⟩

end Omega_h

namespace osh

/-! ## Theorems on the cases -/

theorem length_set_vector (out : Reals) (ov : Nat) (v : Vector3) :
    (set_vector out ov v).length = out.length := by
  simp [set_vector]

theorem length_foldl_keep (f : Nat → Reals → Reals)
    (hf : ∀ ov out, (f ov out).length = out.length) (l : List Nat) :
    ∀ out : Reals, (l.foldl (fun out ov => f ov out) out).length = out.length := by
  induction l with
  | nil => intro out; rfl
  | cons a l ih => intro out; simp only [List.foldl_cons]; rw [ih, hf]

theorem length_parallel_for (n : Nat) (f : Nat → Reals → Reals)
    (hf : ∀ ov out, (f ov out).length = out.length) (out : Reals) :
    (parallel_for n f out).length = out.length :=
  length_foldl_keep f hf (List.range n) out

theorem getElem?_set_vector_fold (g : Nat → Vector3) :
    ∀ (k : Nat) (out : Reals), k * 3 ≤ out.length → ∀ i, i < k →
      ((List.range k).foldl (fun out ov => set_vector out ov (g ov)) out)[i * 3]?
        = some (g i).x ∧
      ((List.range k).foldl (fun out ov => set_vector out ov (g ov)) out)[i * 3 + 1]?
        = some (g i).y ∧
      ((List.range k).foldl (fun out ov => set_vector out ov (g ov)) out)[i * 3 + 2]?
        = some (g i).z := by
  intro k
  induction k with
  | zero => intro out _ i hi; exact absurd hi (Nat.not_lt_zero _)
  | succ k ih =>
    intro out hlen i hi
    have hl : ((List.range k).foldl (fun out ov => set_vector out ov (g ov)) out).length
        = out.length :=
      length_foldl_keep (fun ov out => set_vector out ov (g ov))
        (fun ov out => length_set_vector out ov (g ov)) (List.range k) out
    rw [List.range_succ, List.foldl_append]
    simp only [List.foldl_cons, List.foldl_nil]
    have ih := ih out (by omega)
    generalize (List.range k).foldl (fun out ov => set_vector out ov (g ov)) out = r at hl ih ⊢
    simp only [set_vector, List.getElem?_set, List.length_set]
    by_cases hik : i = k
    · subst hik
      refine ⟨?_, ?_, ?_⟩
      · rw [if_neg (by omega), if_neg (by omega), if_pos rfl, if_pos (by omega)]
      · rw [if_neg (by omega), if_pos rfl, if_pos (by omega)]
      · rw [if_pos rfl, if_pos (by omega)]
    · obtain ⟨h0, h1, h2⟩ := ih i (by omega)
      refine ⟨?_, ?_, ?_⟩
      · rw [if_neg (by omega), if_neg (by omega), if_neg (by omega)]; exact h0
      · rw [if_neg (by omega), if_neg (by omega), if_neg (by omega)]; exact h1
      · rw [if_neg (by omega), if_neg (by omega), if_neg (by omega)]; exact h2

theorem twin_rotor_static_motion_entry (lib : Lib) (m : Mesh) (ov2v : LOs) (center : Vector3)
    (dir : ℚ) (i : Nat) (hi : i < ov2v.length) :
    vector_3 ((TwinRotor.static_motion lib m ov2v center dir).getD (i * 3) 0)
        ((TwinRotor.static_motion lib m ov2v center dir).getD (i * 3 + 1) 0)
        ((TwinRotor.static_motion lib m ov2v center dir).getD (i * 3 + 2) 0) =
      (((lib.rotate (dir * lib.PI / 8) (vector_3 0 0 1))
          ((lib.get_vector m.coords (ov2v.getD i 0)).sub center)).add center).sub
        (lib.get_vector m.coords (ov2v.getD i 0)) := by
  obtain ⟨h0, h1, h2⟩ := getElem?_set_vector_fold
    (fun ov => (((lib.rotate (dir * lib.PI / 8) (vector_3 0 0 1))
          ((lib.get_vector m.coords (ov2v.getD ov 0)).sub center)).add center).sub
        (lib.get_vector m.coords (ov2v.getD ov 0)))
    ov2v.length (Write (ov2v.length * 3) 0) (by simp [Write]) i hi
  simp only [List.getD_eq_getElem?_getD] at h0 h1 h2 ⊢
  simp only [TwinRotor.static_motion, parallel_for, List.getD_eq_getElem?_getD, h0, h1, h2,
    Option.getD_some]
  rfl

theorem length_motion (c : Case) (lib : Lib) (m : Mesh) (step : Nat) (object : Int)
    (ov2v : LOs) (out : Reals) (h : c.motion lib m step object ov2v = .ok out) :
    out.length = ov2v.length * 3 := by
  have hw : (Write (ov2v.length * 3) 0).length = ov2v.length * 3 := List.length_replicate _ _
  cases c with
  | TranslateBall =>
    simp only [Case.motion, Except.ok.injEq] at h
    rw [← h, TranslateBall.static_motion, length_parallel_for _ _ _ _, hw]
    intro ov out; exact length_set_vector _ _ _
  | RotateBall =>
    simp only [Case.motion, Except.ok.injEq] at h
    rw [← h, RotateBall.static_motion, length_parallel_for _ _ _ _, hw]
    intro ov out; exact length_set_vector _ _ _
  | CollideBalls =>
    simp only [Case.motion, Except.ok.injEq] at h
    rw [← h, CollideBalls.static_motion, length_parallel_for _ _ _ _, hw]
    intro ov out; split <;> exact length_set_vector _ _ _
  | CylinderTube =>
    simp only [Case.motion, Except.ok.injEq] at h
    rw [← h, CylinderTube.static_motion, length_parallel_for _ _ _ _, hw]
    intro ov out; exact length_set_vector _ _ _
  | TwinRotor =>
    simp only [Case.motion, TwinRotor.motion] at h
    split at h
    · simp only [Except.ok.injEq] at h
      rw [← h, TwinRotor.static_motion, length_parallel_for _ _ _ _, hw]
      intro ov out; exact length_set_vector _ _ _
    · split at h
      · simp only [Except.ok.injEq] at h
        rw [← h, TwinRotor.static_motion, length_parallel_for _ _ _ _, hw]
        intro ov out; exact length_set_vector _ _ _
      · exact Except.noConfusion h

/-- C7, as stated, fails: on a two-dimensional mesh `TranslateBall::motion`
for a subset of one vertex returns three entries, not `1 * mesh_dim = 2`. -/
theorem motion_size_not_mesh_dim :
    Case.motion .TranslateBall plain_lib flat_mesh 0 72 [1] = .ok [2 / 100, 0, 0] ∧
    ([2 / 100, 0, 0] : Reals).length ≠ [1].length * flat_mesh.dim := by
  refine ⟨rfl, ?_⟩
  decide

/-- C7, amended: whenever `motion` of any of the five cases succeeds, it
returns exactly `|ov2v| * 3` entries, whatever the mesh dimension; on a
three-dimensional mesh this is `|ov2v| * mesh_dim`, the size that `map_into`
with width `mesh.dim()` accepts. -/
theorem motion_size (c : Case) (lib : Lib) (m : Mesh) (step : Nat) (object : Int)
    (ov2v : LOs) (out : Reals) (h : c.motion lib m step object ov2v = .ok out) :
    out.length = ov2v.length * 3 ∧
    (m.dim = 3 → out.length = ov2v.length * m.dim ∧
      ∀ motion_w, ∃ r, map_into out ov2v motion_w m.dim = .ok r) := by
  have hlen := length_motion c lib m step object ov2v out h
  refine ⟨hlen, fun hd => ⟨by rw [hd]; exact hlen, fun motion_w => ?_⟩⟩
  have hsz : ¬ (out.length ≠ ov2v.length * m.dim) := by rw [hd]; exact not_not.mpr hlen
  unfold map_into
  rw [if_neg hsz]
  exact ⟨_, rfl⟩

/-- Witness of C7 (amended): `TwinRotor::motion` for object 66 on a
three-dimensional mesh, with a subset of two vertices. -/
theorem motion_size_witness :
    Case.motion .TwinRotor plain_lib solid_mesh 1 66 [0, 2] = .ok [0, 0, 0, 0, 0, 0] ∧
    ([0, 0, 0, 0, 0, 0] : Reals).length = [0, 2].length * 3 :=
  have h : Case.motion .TwinRotor plain_lib solid_mesh 1 66 [0, 2] = .ok [0, 0, 0, 0, 0, 0] := by
    simp [Case.motion, TwinRotor.motion, TwinRotor.assembly0, std_set, set_insert,
      TwinRotor.static_motion, parallel_for, set_vector, Write, plain_lib, vector_3,
      Vector3.sub, Vector3.add, List.range, List.range.loop, List.replicate]
  ⟨h, (motion_size .TwinRotor plain_lib solid_mesh 1 66 [0, 2] [0, 0, 0, 0, 0, 0] h).1⟩

theorem assembly0_eq : TwinRotor.assembly0 = [66, 98, 126] := by
  decide

theorem assembly1_eq : TwinRotor.assembly1 = [252, 253, 254] := by
  decide

theorem assemblies_disjoint (object : Int) (h0 : object ∈ TwinRotor.assembly0) :
    object ∉ TwinRotor.assembly1 := by
  rw [assembly0_eq] at h0
  rw [assembly1_eq]
  simp only [List.mem_cons, List.mem_singleton, List.not_mem_nil, or_false] at h0 ⊢
  omega

/-- C8: the two assemblies of TwinRotor, {66, 98, 126} and {252, 253, 254},
have no common element. For an object of `assembly0` (such as 66) `motion`
succeeds and gives every vertex of the subset the displacement
`rotate(PI / 8, z) * (x - c) + c - x` with `c = (-0.25, 0, 0)`: center
(-0.25, 0, 0), direction +1. For an object of `assembly1` (such as 254) it
gives `rotate(-(PI / 8), z) * (x - c) + c - x` with `c = (0.25, 0, 0)`:
center (0.25, 0, 0), direction -1. The angles passed to `rotate`, about the
axis (0, 0, 1), are `dir * PI / 8` and are negations of each other. -/
theorem twin_rotor_assemblies (lib : Lib) (m : Mesh) (step : Nat) (ov2v : LOs) :
    TwinRotor.assembly0 = [66, 98, 126] ∧
    TwinRotor.assembly1 = [252, 253, 254] ∧
    (∀ object, ¬ (object ∈ TwinRotor.assembly0 ∧ object ∈ TwinRotor.assembly1)) ∧
    (66 : Int) ∈ TwinRotor.assembly0 ∧ (254 : Int) ∈ TwinRotor.assembly1 ∧
    (∀ object ∈ TwinRotor.assembly0, ∃ out,
      Case.motion .TwinRotor lib m step object ov2v = .ok out ∧
      out = TwinRotor.static_motion lib m ov2v (vector_3 (-1 / 4) 0 0) 1 ∧
      out.length = ov2v.length * 3 ∧
      ∀ i, i < ov2v.length →
        vector_3 (out.getD (i * 3) 0) (out.getD (i * 3 + 1) 0) (out.getD (i * 3 + 2) 0) =
          (((lib.rotate (1 * lib.PI / 8) (vector_3 0 0 1))
              ((lib.get_vector m.coords (ov2v.getD i 0)).sub (vector_3 (-1 / 4) 0 0))).add
            (vector_3 (-1 / 4) 0 0)).sub (lib.get_vector m.coords (ov2v.getD i 0))) ∧
    (∀ object ∈ TwinRotor.assembly1, ∃ out,
      Case.motion .TwinRotor lib m step object ov2v = .ok out ∧
      out = TwinRotor.static_motion lib m ov2v (vector_3 (1 / 4) 0 0) (-1) ∧
      out.length = ov2v.length * 3 ∧
      ∀ i, i < ov2v.length →
        vector_3 (out.getD (i * 3) 0) (out.getD (i * 3 + 1) 0) (out.getD (i * 3 + 2) 0) =
          (((lib.rotate (-(1 * lib.PI / 8)) (vector_3 0 0 1))
              ((lib.get_vector m.coords (ov2v.getD i 0)).sub (vector_3 (1 / 4) 0 0))).add
            (vector_3 (1 / 4) 0 0)).sub (lib.get_vector m.coords (ov2v.getD i 0))) ∧
    (-1 : ℚ) * lib.PI / 8 = -(1 * lib.PI / 8) := by
  have hc0 : (-(25 / 100) : ℚ) = -1 / 4 := by norm_num
  have hc1 : ((25 / 100) : ℚ) = 1 / 4 := by norm_num
  have hang : (-1 : ℚ) * lib.PI / 8 = -(1 * lib.PI / 8) := by ring
  refine ⟨assembly0_eq, assembly1_eq, fun object h => assemblies_disjoint object h.1 h.2,
    by decide, by decide, ?_, ?_, hang⟩
  · intro object h0
    have hm : Case.motion .TwinRotor lib m step object ov2v =
        .ok (TwinRotor.static_motion lib m ov2v (vector_3 (-1 / 4) 0 0) 1) := by
      simp only [Case.motion, TwinRotor.motion, if_pos h0, hc0]
    refine ⟨_, hm, rfl, length_motion .TwinRotor lib m step object ov2v _ hm, fun i hi => ?_⟩
    exact twin_rotor_static_motion_entry lib m ov2v (vector_3 (-1 / 4) 0 0) 1 i hi
  · intro object h1
    have h0 : object ∉ TwinRotor.assembly0 := fun h0 => assemblies_disjoint object h0 h1
    have hm : Case.motion .TwinRotor lib m step object ov2v =
        .ok (TwinRotor.static_motion lib m ov2v (vector_3 (1 / 4) 0 0) (-1)) := by
      simp only [Case.motion, TwinRotor.motion, if_neg h0, if_pos h1, hc1]
    refine ⟨_, hm, rfl, length_motion .TwinRotor lib m step object ov2v _ hm, fun i hi => ?_⟩
    rw [← hang]
    exact twin_rotor_static_motion_entry lib m ov2v (vector_3 (1 / 4) 0 0) (-1) i hi

/-- Witness of C8: vertex 1, at (1, 0, 0), of a three-dimensional mesh, with a
library whose rotation is a quarter turn in the direction of the sign of the
angle: object 66 moves it by (-5/4, 5/4, 0) and object 254 by
(-3/4, -3/4, 0). -/
theorem twin_rotor_assemblies_witness :
    Case.motion .TwinRotor turning_lib solid_mesh 0 66 [1] = .ok [-5 / 4, 5 / 4, 0] ∧
    Case.motion .TwinRotor turning_lib solid_mesh 0 254 [1] = .ok [-3 / 4, -3 / 4, 0] ∧
    (∃ out, Case.motion .TwinRotor turning_lib solid_mesh 0 66 [1] = .ok out ∧
      out = TwinRotor.static_motion turning_lib solid_mesh [1] (vector_3 (-1 / 4) 0 0) 1 ∧
      out.length = [1].length * 3 ∧
      ∀ i, i < [1].length →
        vector_3 (out.getD (i * 3) 0) (out.getD (i * 3 + 1) 0) (out.getD (i * 3 + 2) 0) =
          (((turning_lib.rotate (1 * turning_lib.PI / 8) (vector_3 0 0 1))
              ((turning_lib.get_vector solid_mesh.coords (([1] : LOs).getD i 0)).sub
                (vector_3 (-1 / 4) 0 0))).add
            (vector_3 (-1 / 4) 0 0)).sub
              (turning_lib.get_vector solid_mesh.coords (([1] : LOs).getD i 0))) :=
  ⟨by norm_num [Case.motion, TwinRotor.motion, TwinRotor.assembly0, std_set, set_insert,
      TwinRotor.static_motion, parallel_for, set_vector, Write, turning_lib, solid_mesh,
      vector_3, Vector3.sub, Vector3.add, List.range, List.range.loop, List.replicate],
   by norm_num [Case.motion, TwinRotor.motion, TwinRotor.assembly0, TwinRotor.assembly1,
      std_set, set_insert,
      TwinRotor.static_motion, parallel_for, set_vector, Write, turning_lib, solid_mesh,
      vector_3, Vector3.sub, Vector3.add, List.range, List.range.loop, List.replicate],
   (twin_rotor_assemblies turning_lib solid_mesh 0 [1]).2.2.2.2.2.1 66 (by decide)⟩

/-- C9: `TwinRotor::motion` fails if and only if the object is in neither
assembly, and the failure then names the object; `TwinRotor::objects()` is
66, 98, 126, 252, 253, 254, each once, and `motion` succeeds on each of
them. -/
theorem twin_rotor_motion_fails_iff (lib : Lib) (m : Mesh) (step : Nat) (ov2v : LOs) :
    (∀ object, (∃ f, Case.motion .TwinRotor lib m step object ov2v = .error f) ↔
      (object ∉ TwinRotor.assembly0 ∧ object ∉ TwinRotor.assembly1)) ∧
    (∀ object f, Case.motion .TwinRotor lib m step object ov2v = .error f →
      f = .object_not_in_either_assembly object) ∧
    Case.objects .TwinRotor = [66, 98, 126, 252, 253, 254] ∧
    (Case.objects .TwinRotor).Nodup ∧
    (∀ object ∈ Case.objects .TwinRotor,
      ∃ out, Case.motion .TwinRotor lib m step object ov2v = .ok out) := by
  have hcases : ∀ object,
      (object ∈ TwinRotor.assembly0 ∧ Case.motion .TwinRotor lib m step object ov2v =
        .ok (TwinRotor.static_motion lib m ov2v (vector_3 (-(25 / 100)) 0 0) 1)) ∨
      (object ∉ TwinRotor.assembly0 ∧ object ∈ TwinRotor.assembly1 ∧
        Case.motion .TwinRotor lib m step object ov2v =
          .ok (TwinRotor.static_motion lib m ov2v (vector_3 (25 / 100) 0 0) (-1))) ∨
      (object ∉ TwinRotor.assembly0 ∧ object ∉ TwinRotor.assembly1 ∧
        Case.motion .TwinRotor lib m step object ov2v =
          .error (.object_not_in_either_assembly object)) := by
    intro object
    by_cases h0 : object ∈ TwinRotor.assembly0
    · exact Or.inl ⟨h0, by simp only [Case.motion, TwinRotor.motion, if_pos h0]⟩
    · by_cases h1 : object ∈ TwinRotor.assembly1
      · exact Or.inr (Or.inl ⟨h0, h1,
          by simp only [Case.motion, TwinRotor.motion, if_neg h0, if_pos h1]⟩)
      · exact Or.inr (Or.inr ⟨h0, h1,
          by simp only [Case.motion, TwinRotor.motion, if_neg h0, if_neg h1]⟩)
  have hobjs : Case.objects .TwinRotor = [66, 98, 126, 252, 253, 254] := by
    simp only [Case.objects, TwinRotor.objects, assembly0_eq, assembly1_eq]
    rfl
  refine ⟨?_, ?_, hobjs, ?_, ?_⟩
  · intro object
    rcases hcases object with ⟨h0, hm⟩ | ⟨_, h1, hm⟩ | ⟨h0, h1, hm⟩
    · rw [hm]
      exact ⟨fun ⟨f, hf⟩ => Except.noConfusion hf, fun h => absurd h0 h.1⟩
    · rw [hm]
      exact ⟨fun ⟨f, hf⟩ => Except.noConfusion hf, fun h => absurd h1 h.2⟩
    · exact ⟨fun _ => ⟨h0, h1⟩, fun _ => ⟨_, hm⟩⟩
  · intro object f hf
    rcases hcases object with ⟨_, hm⟩ | ⟨_, _, hm⟩ | ⟨_, _, hm⟩
    · rw [hm] at hf; exact Except.noConfusion hf
    · rw [hm] at hf; exact Except.noConfusion hf
    · rw [hm] at hf; exact (Except.error.inj hf).symm
  · rw [hobjs]; decide
  · intro object hmem
    rcases hcases object with ⟨_, hm⟩ | ⟨_, _, hm⟩ | ⟨h0, h1, _⟩
    · exact ⟨_, hm⟩
    · exact ⟨_, hm⟩
    · exfalso
      simp only [Case.objects, TwinRotor.objects, List.mem_append] at hmem
      rcases hmem with h | h
      · exact h0 h
      · exact h1 h

/-- Witness of C9: object 72 is in neither assembly and `motion` fails on it,
naming it; object 253 is in `objects()` and `motion` succeeds on it. -/
theorem twin_rotor_motion_fails_iff_witness :
    Case.motion .TwinRotor plain_lib solid_mesh 0 72 [0, 2]
      = .error (.object_not_in_either_assembly 72) ∧
    ∃ out, Case.motion .TwinRotor plain_lib solid_mesh 0 253 [0, 2] = .ok out :=
  ⟨(((twin_rotor_motion_fails_iff plain_lib solid_mesh 0 [0, 2]).1 72).2
      ⟨by decide, by decide⟩).elim
      (fun f hf => ((twin_rotor_motion_fails_iff plain_lib solid_mesh 0 [0, 2]).2.1 72 f hf) ▸ hf),
   (twin_rotor_motion_fails_iff plain_lib solid_mesh 0 [0, 2]).2.2.2.2 253 (by decide)⟩

theorem length_row (a_data : Reals) (pos base : Nat) :
    ∀ (k : Nat) (b : Reals),
      ((List.range k).foldl (fun b j => b.set (pos + j) (a_data.getD (base + j) 0)) b).length
        = b.length := by
  intro k
  induction k with
  | zero => intro b; rfl
  | succ k ih =>
    intro b
    rw [List.range_succ, List.foldl_append]
    simp only [List.foldl_cons, List.foldl_nil, List.length_set]
    exact ih b

theorem getElem?_row (a_data : Reals) (pos base : Nat) :
    ∀ (k : Nat) (b : Reals) (p : Nat), p < b.length →
      ((List.range k).foldl (fun b j => b.set (pos + j) (a_data.getD (base + j) 0)) b)[p]? =
        if pos ≤ p ∧ p < pos + k then some (a_data.getD (base + (p - pos)) 0) else b[p]? := by
  intro k
  induction k with
  | zero =>
    intro b p _
    have hc : ¬ (pos ≤ p ∧ p < pos + 0) := by omega
    rw [if_neg hc]; rfl
  | succ k ih =>
    intro b p hp
    rw [List.range_succ, List.foldl_append]
    simp only [List.foldl_cons, List.foldl_nil]
    rw [List.getElem?_set, length_row]
    by_cases hpk : pos + k = p
    · have hc : pos ≤ p ∧ p < pos + (k + 1) := by omega
      have hk : p - pos = k := by omega
      rw [if_pos hpk, if_pos (by omega), if_pos hc, hk]
    · rw [if_neg hpk, ih b p hp]
      by_cases hc : pos ≤ p ∧ p < pos + k
      · rw [if_pos hc, if_pos (by omega)]
      · rw [if_neg hc, if_neg (by omega)]

theorem row_index_iff (u v w j : Nat) (hj : j < w) :
    (u * w ≤ v * w + j ∧ v * w + j < u * w + w) ↔ v = u := by
  constructor
  · rintro ⟨h1, h2⟩
    by_contra hne
    rcases Nat.lt_or_gt_of_ne hne with h | h
    · have := Nat.mul_le_mul_right w (Nat.succ_le_of_lt h)
      rw [Nat.succ_mul] at this
      omega
    · have := Nat.mul_le_mul_right w (Nat.succ_le_of_lt h)
      rw [Nat.succ_mul] at this
      omega
  · rintro rfl
    omega

theorem indexOf_eq_iff (a2b : LOs) (hnd : a2b.Nodup) (k : Nat) (hk : k < a2b.length)
    (v : Nat) : a2b.indexOf v = k ↔ v = a2b.getD k 0 := by
  rw [List.getD_eq_getElem a2b 0 hk]
  constructor
  · intro h
    have hlt : a2b.indexOf v < a2b.length := by rw [h]; exact hk
    have := List.getElem_indexOf hlt
    simp only [h] at this
    exact this.symm
  · rintro rfl
    exact List.indexOf_getElem hnd k hk

theorem length_scatter (a_data : Reals) (a2b : LOs) (width : Nat) :
    ∀ (k : Nat) (b : Reals),
      ((List.range k).foldl (fun b_data a =>
        (List.range width).foldl (fun b_data j =>
          b_data.set (a2b.getD a 0 * width + j) (a_data.getD (a * width + j) 0)) b_data)
        b).length = b.length := by
  intro k
  induction k with
  | zero => intro b; rfl
  | succ k ih =>
    intro b
    rw [List.range_succ, List.foldl_append]
    simp only [List.foldl_cons, List.foldl_nil]
    rw [length_row, ih]

theorem getElem?_scatter (a_data : Reals) (a2b : LOs) (width : Nat) (hnd : a2b.Nodup) :
    ∀ (k : Nat), k ≤ a2b.length → ∀ (b : Reals) (v j : Nat), j < width →
      v * width + j < b.length →
      ((List.range k).foldl (fun b_data a =>
        (List.range width).foldl (fun b_data j =>
          b_data.set (a2b.getD a 0 * width + j) (a_data.getD (a * width + j) 0)) b_data)
        b)[v * width + j]? =
        if a2b.indexOf v < k then some (a_data.getD (a2b.indexOf v * width + j) 0)
        else b[v * width + j]? := by
  intro k
  induction k with
  | zero =>
    intro _ b v j _ _
    rw [if_neg (Nat.not_lt_zero _)]; rfl
  | succ k ih =>
    intro hk b v j hj hp
    rw [List.range_succ, List.foldl_append]
    simp only [List.foldl_cons, List.foldl_nil]
    rw [getElem?_row _ _ _ _ _ _ (by rw [length_scatter]; exact hp)]
    have hidx := indexOf_eq_iff a2b hnd k (by omega) v
    by_cases hv : v = a2b.getD k 0
    · have hi : a2b.indexOf v = k := hidx.mpr hv
      have hc := (row_index_iff (a2b.getD k 0) v width j hj).mpr hv
      rw [if_pos hc, hi, if_pos (Nat.lt_succ_self k), hv]
      congr 2
      omega
    · have hi : a2b.indexOf v ≠ k := fun h => hv (hidx.mp h)
      have hc : ¬ (a2b.getD k 0 * width ≤ v * width + j ∧
          v * width + j < a2b.getD k 0 * width + width) :=
        fun h => hv ((row_index_iff (a2b.getD k 0) v width j hj).mp h)
      rw [if_neg hc, ih (by omega) b v j hj hp]
      by_cases hlt : a2b.indexOf v < k
      · rw [if_pos hlt, if_pos (by omega)]
      · rw [if_neg hlt, if_neg (by omega)]

theorem map_into_spec (a_data : Reals) (a2b : LOs) (b r : Reals) (width : Nat)
    (hnd : a2b.Nodup) (h : map_into a_data a2b b width = .ok r) :
    a_data.length = a2b.length * width ∧ r.length = b.length ∧
    ∀ v j, j < width → v * width + j < b.length →
      r[v * width + j]? =
        if v ∈ a2b then some (a_data.getD (a2b.indexOf v * width + j) 0)
        else b[v * width + j]? := by
  unfold map_into at h
  by_cases hsz : a_data.length ≠ a2b.length * width
  · rw [if_pos hsz] at h; exact Except.noConfusion h
  · rw [if_neg hsz] at h
    have hr := Except.ok.inj h
    subst hr
    refine ⟨not_not.mp hsz, length_scatter _ _ _ _ _, fun v j hj hp => ?_⟩
    rw [getElem?_scatter a_data a2b width hnd a2b.length (le_refl _) b v j hj hp]
    by_cases hm : v ∈ a2b
    · rw [if_pos hm, if_pos (List.indexOf_lt_length.mpr hm)]
    · rw [if_neg hm, if_neg (fun hh => hm (List.indexOf_lt_length.mp hh))]

theorem last_writer_nil (mesh : Mesh) (v : Nat) : last_writer mesh [] v = none := rfl

theorem last_writer_cons (mesh : Mesh) (obj : Int) (rest : List Int) (v : Nat) :
    last_writer mesh (obj :: rest) v =
      match last_writer mesh rest v with
      | some o => some o
      | none => if mesh.class_closure obj v = true then some obj else none := by
  unfold last_writer
  by_cases hc : mesh.class_closure obj v = true
  · have hf : List.filter (fun obj => mesh.class_closure obj v) (obj :: rest) =
        obj :: List.filter (fun obj => mesh.class_closure obj v) rest :=
      List.filter_cons_of_pos hc
    rw [hf, List.getLast?_cons, if_pos hc]
    cases (List.filter (fun obj => mesh.class_closure obj v) rest).getLast? <;> rfl
  · have hf : List.filter (fun obj => mesh.class_closure obj v) (obj :: rest) =
        List.filter (fun obj => mesh.class_closure obj v) rest :=
      List.filter_cons_of_neg hc
    rw [hf, if_neg hc]
    cases (List.filter (fun obj => mesh.class_closure obj v) rest).getLast? <;> rfl

theorem mem_verts_on_obj (mesh : Mesh) (obj : Int) (v : Nat) :
    v ∈ verts_on_obj mesh obj ↔ v < mesh.nverts ∧ mesh.class_closure obj v = true := by
  simp [verts_on_obj, List.mem_filter, List.mem_range]

theorem nodup_verts_on_obj (mesh : Mesh) (obj : Int) : (verts_on_obj mesh obj).Nodup :=
  (List.nodup_range mesh.nverts).filter _

theorem index_lt (n w v j : Nat) (hv : v < n) (hj : j < w) : v * w + j < n * w := by
  have := Nat.mul_le_mul_right w (Nat.succ_le_of_lt hv)
  rw [Nat.succ_mul] at this
  omega

theorem scatter_objects_spec (lib : Lib) (c : Case) (mesh : Mesh) (step : Nat) :
    ∀ (objs : List Int) (w0 w : Reals), w0.length = mesh.nverts * mesh.dim →
      scatter_objects lib c mesh step objs w0 = .ok w →
      w.length = mesh.nverts * mesh.dim ∧
      ∀ v j, v < mesh.nverts → j < mesh.dim →
        w[v * mesh.dim + j]? =
          match last_writer mesh objs v with
          | some obj => some (displacement lib c mesh step obj v j)
          | none => w0[v * mesh.dim + j]? := by
  intro objs
  induction objs with
  | nil =>
    intro w0 w hlen h
    simp only [scatter_objects, Except.ok.injEq] at h
    subst h
    exact ⟨hlen, fun v j _ _ => by rw [last_writer_nil]⟩
  | cons obj rest ih =>
    intro w0 w hlen h
    simp only [scatter_objects] at h
    cases hm : c.motion lib mesh step obj (verts_on_obj mesh obj) with
    | error f => rw [hm] at h; exact Except.noConfusion h
    | ok a =>
      rw [hm] at h
      simp only at h
      cases hmap : map_into a (verts_on_obj mesh obj) w0 mesh.dim with
      | error f => rw [hmap] at h; exact Except.noConfusion h
      | ok w1 =>
        rw [hmap] at h
        simp only at h
        obtain ⟨hsz, hlen1, hget1⟩ :=
          map_into_spec a (verts_on_obj mesh obj) w0 w1 mesh.dim (nodup_verts_on_obj mesh obj) hmap
        obtain ⟨hlenw, hgetw⟩ := ih w1 w (by rw [hlen1]; exact hlen) h
        refine ⟨hlenw, fun v j hv hj => ?_⟩
        rw [hgetw v j hv hj, last_writer_cons]
        cases hlw : last_writer mesh rest v with
        | some o => rfl
        | none =>
          simp only
          have hp : v * mesh.dim + j < w0.length := by
            rw [hlen]; exact index_lt _ _ _ _ hv hj
          rw [hget1 v j hj hp]
          by_cases hc : mesh.class_closure obj v = true
          · have hmem : v ∈ verts_on_obj mesh obj := (mem_verts_on_obj mesh obj v).mpr ⟨hv, hc⟩
            have hpos : 0 < (verts_on_obj mesh obj).length := List.length_pos_of_mem hmem
            have h3 := length_motion c lib mesh step obj (verts_on_obj mesh obj) a hm
            have hdim : mesh.dim = 3 :=
              Nat.eq_of_mul_eq_mul_left hpos (hsz.symm.trans h3)
            rw [if_pos hmem, if_pos hc]
            simp only [displacement, hm, hdim]
          · have hmem : v ∉ verts_on_obj mesh obj :=
              fun hh => hc ((mem_verts_on_obj mesh obj v).mp hh).2
            rw [if_neg hmem, if_neg hc]

theorem translate_ball_displacement (lib : Lib) (mesh : Mesh) (step : Nat) (obj : Int)
    (v : Nat) (hv : v ∈ verts_on_obj mesh obj) :
    displacement lib .TranslateBall mesh step obj v 0 = 2 / 100 ∧
    displacement lib .TranslateBall mesh step obj v 1 = 0 ∧
    displacement lib .TranslateBall mesh step obj v 2 = 0 := by
  have hi : (verts_on_obj mesh obj).indexOf v < (verts_on_obj mesh obj).length :=
    List.indexOf_lt_length.mpr hv
  obtain ⟨h0, h1, h2⟩ := getElem?_set_vector_fold (fun _ => (⟨2 / 100, 0, 0⟩ : Vector3))
    (verts_on_obj mesh obj).length (Write ((verts_on_obj mesh obj).length * 3) 0)
    (by simp [Write]) _ hi
  simp only [displacement, Case.motion, TranslateBall.static_motion, parallel_for,
    List.getD_eq_getElem?_getD, Nat.add_zero, h0, h1, h2, Option.getD_some, vector_3]
  exact ⟨trivial, trivial, trivial⟩

theorem motion_ok_of_mem_objects (c : Case) (lib : Lib) (m : Mesh) (step : Nat) (object : Int)
    (ov2v : LOs) (h : object ∈ c.objects) :
    ∃ out, c.motion lib m step object ov2v = .ok out := by
  cases c with
  | TranslateBall => exact ⟨_, rfl⟩
  | RotateBall => exact ⟨_, rfl⟩
  | CollideBalls => exact ⟨_, rfl⟩
  | CylinderTube => exact ⟨_, rfl⟩
  | TwinRotor =>
    simp only [Case.objects, TwinRotor.objects, List.mem_append] at h
    simp only [Case.motion, TwinRotor.motion]
    by_cases h0 : object ∈ TwinRotor.assembly0
    · rw [if_pos h0]; exact ⟨_, rfl⟩
    · have h1 : object ∈ TwinRotor.assembly1 := h.resolve_left h0
      rw [if_neg h0, if_pos h1]; exact ⟨_, rfl⟩

theorem scatter_objects_ok (lib : Lib) (c : Case) (mesh : Mesh) (step : Nat)
    (hdim : mesh.dim = 3) :
    ∀ (objs : List Int), (∀ obj ∈ objs, obj ∈ c.objects) → ∀ w0 : Reals,
      ∃ w, scatter_objects lib c mesh step objs w0 = .ok w := by
  intro objs
  induction objs with
  | nil => intro _ w0; exact ⟨w0, rfl⟩
  | cons obj rest ih =>
    intro hall w0
    obtain ⟨a, ha⟩ := motion_ok_of_mem_objects c lib mesh step obj (verts_on_obj mesh obj)
      (hall obj (List.mem_cons_self _ _))
    have hlen := length_motion c lib mesh step obj (verts_on_obj mesh obj) a ha
    have hsz : ¬ (a.length ≠ (verts_on_obj mesh obj).length * mesh.dim) := by
      rw [hdim]; exact not_not.mpr hlen
    obtain ⟨w, hw⟩ := ih (fun o ho => hall o (List.mem_cons_of_mem _ ho))
      ((List.range (verts_on_obj mesh obj).length).foldl (fun b_data i =>
        (List.range mesh.dim).foldl (fun b_data j =>
          b_data.set ((verts_on_obj mesh obj).getD i 0 * mesh.dim + j)
            (a.getD (i * mesh.dim + j) 0)) b_data) w0)
    refine ⟨w, ?_⟩
    simp only [scatter_objects, ha, map_into, if_neg hsz]
    exact hw

/-- C10: whenever the loop over the objects of a step of `run_case` completes,
the boundary motion field has `nverts * mesh_dim` entries and holds, for every
vertex and component, the displacement that `motion` gave the vertex for the
last object of `objects()` whose classification closure contains it, and 0 if
no closure contains it; for TranslateBall this is (0.02, 0, 0) on the closure
of object 72 and 0 elsewhere; and on a three-dimensional mesh the loop
completes for each of the five cases. -/
theorem boundary_motion_last_writer_wins (lib : Lib) (c : Case) (mesh : Mesh) (step : Nat) :
    (∀ w, boundary_motion lib c mesh step = .ok w →
      w.length = mesh.nverts * mesh.dim ∧
      ∀ v j, v < mesh.nverts → j < mesh.dim →
        w[v * mesh.dim + j]? = some (match last_writer mesh c.objects v with
          | some obj => displacement lib c mesh step obj v j
          | none => 0)) ∧
    (∀ w, boundary_motion lib .TranslateBall mesh 0 = .ok w →
      ∀ v, v < mesh.nverts →
        (mesh.class_closure 72 v = true →
          mesh.dim = 3 ∧ w[v * mesh.dim]? = some (2 / 100) ∧
          w[v * mesh.dim + 1]? = some 0 ∧ w[v * mesh.dim + 2]? = some 0) ∧
        (mesh.class_closure 72 v = false →
          ∀ j, j < mesh.dim → w[v * mesh.dim + j]? = some 0)) ∧
    (mesh.dim = 3 → ∃ w, boundary_motion lib c mesh step = .ok w) := by
  have hw0 : (Write (mesh.nverts * mesh.dim) 0).length = mesh.nverts * mesh.dim :=
    List.length_replicate _ _
  have hzero : ∀ v j, v < mesh.nverts → j < mesh.dim →
      (Write (mesh.nverts * mesh.dim) 0)[v * mesh.dim + j]? = some 0 := by
    intro v j hv hj
    exact List.getElem?_replicate_of_lt (index_lt _ _ _ _ hv hj)
  have hgen : ∀ (c : Case) (step : Nat) (w : Reals), boundary_motion lib c mesh step = .ok w →
      w.length = mesh.nverts * mesh.dim ∧
      ∀ v j, v < mesh.nverts → j < mesh.dim →
        w[v * mesh.dim + j]? = some (match last_writer mesh c.objects v with
          | some obj => displacement lib c mesh step obj v j
          | none => 0) := by
    intro c step w h
    obtain ⟨hlen, hget⟩ := scatter_objects_spec lib c mesh step c.objects _ w hw0 h
    refine ⟨hlen, fun v j hv hj => ?_⟩
    rw [hget v j hv hj]
    cases last_writer mesh c.objects v with
    | some obj => rfl
    | none => exact hzero v j hv hj
  refine ⟨hgen c step, ?_, ?_⟩
  · intro w h v hv
    obtain ⟨hlen, hget⟩ := hgen .TranslateBall 0 w h
    have hlw : last_writer mesh (Case.objects .TranslateBall) v =
        if mesh.class_closure 72 v = true then some 72 else none := by
      simp only [Case.objects, last_writer_cons, last_writer_nil]
    constructor
    · intro hc
      have hmem : v ∈ verts_on_obj mesh 72 := (mem_verts_on_obj mesh 72 v).mpr ⟨hv, hc⟩
      have hpos : 0 < (verts_on_obj mesh 72).length := List.length_pos_of_mem hmem
      obtain ⟨a, ha⟩ : ∃ a, Case.motion .TranslateBall lib mesh 0 72 (verts_on_obj mesh 72)
          = .ok a := ⟨_, rfl⟩
      have hdim : mesh.dim = 3 := by
        by_contra hne
        have hfail : map_into a (verts_on_obj mesh 72)
            (Write (mesh.nverts * mesh.dim) 0) mesh.dim = .error .check_failed := by
          have h3 := length_motion .TranslateBall lib mesh 0 72 (verts_on_obj mesh 72) a ha
          have hsz : a.length ≠ (verts_on_obj mesh 72).length * mesh.dim := by
            rw [h3]
            intro heq
            exact hne (Nat.eq_of_mul_eq_mul_left hpos heq).symm
          simp only [map_into, if_pos hsz]
        simp only [boundary_motion, Case.objects, scatter_objects, ha, hfail] at h
        exact Except.noConfusion h
      obtain ⟨d0, d1, d2⟩ := translate_ball_displacement lib mesh 0 72 v hmem
      have g0 := hget v 0 hv (by omega)
      have g1 := hget v 1 hv (by omega)
      have g2 := hget v 2 hv (by omega)
      rw [hlw, if_pos hc] at g0 g1 g2
      simp only [d0, d1, d2, Nat.add_zero] at g0 g1 g2
      exact ⟨hdim, g0, g1, g2⟩
    · intro hc j hj
      have g := hget v j hv hj
      rw [hlw, if_neg (by rw [hc]; exact Bool.false_ne_true)] at g
      exact g
  · intro hdim
    exact scatter_objects_ok lib c mesh step hdim c.objects (fun _ h => h) _

/-- Witness of C10: CollideBalls (objects 72, then 110) on a mesh of three
vertices where vertex 2 is in both closures and vertex 1 in none, and
TranslateBall on the same mesh. -/
theorem boundary_motion_last_writer_wins_witness :
    boundary_motion plain_lib .CollideBalls solid_mesh 0
      = .ok [0, 0, 2 / 100, 0, 0, 0, 0, 0, -(2 / 100)] ∧
    last_writer solid_mesh (Case.objects .CollideBalls) 2 = some 110 ∧
    ([0, 0, 2 / 100, 0, 0, 0, 0, 0, -(2 / 100)] : Reals).length
      = solid_mesh.nverts * solid_mesh.dim ∧
    boundary_motion plain_lib .TranslateBall solid_mesh 0
      = .ok [2 / 100, 0, 0, 0, 0, 0, 2 / 100, 0, 0] ∧
    (solid_mesh.class_closure 72 1 = false →
      ∀ j, j < solid_mesh.dim →
        ([2 / 100, 0, 0, 0, 0, 0, 2 / 100, 0, 0] : Reals)[1 * solid_mesh.dim + j]? = some 0) :=
  ⟨rfl, rfl,
   ((boundary_motion_last_writer_wins plain_lib .CollideBalls solid_mesh 0).1
      [0, 0, 2 / 100, 0, 0, 0, 0, 0, -(2 / 100)] rfl).1,
   rfl,
   ((boundary_motion_last_writer_wins plain_lib .TranslateBall solid_mesh 0).2.1
      [2 / 100, 0, 0, 0, 0, 0, 2 / 100, 0, 0] rfl 1 (by decide)).2⟩

end osh
